import Mathlib

/-!
The bounded semaphore of go-example (package semaphore): a shallow embedding
of `semaphore/semaphore.go`.

The channel `sem chan struct{}` carries empty structs, so its whole state is
its buffer size (`cap`) and the number of buffered elements (`len`); the
latter is the number of outstanding tickets.

Both methods are a two-case `select` between a channel operation and a
receive from `time.After(s.timeout)`.  The embedding describes one call that
runs with no other goroutine touching the channel while it is in progress:

* `time.After(s.timeout)` is evaluated on entering the `select`, before the
  cases are polled, and nothing bounds the time that passes in between: for
  every duration, positive or not, the timer may or may not have fired when
  the `select` polls;
* when the channel operation can proceed and the timer has fired, both cases
  can proceed and Go picks one of them pseudo-randomly; when the timer has not
  fired, the channel operation is taken. How this race ends is an explicit
  argument (`Pick`);
* when the channel operation cannot proceed the call blocks, nothing else
  makes it possible, the timer fires and the timeout case is taken.
-/

namespace Semaphore

/-- The two package-level error values. -/
inductive SemError where
  | ErrNoTickets
  | ErrIllegalRelease
deriving DecidableEq

/-- A `chan struct{}`: buffer size and number of buffered elements. -/
structure Chan where
  cap : Nat
  len : Nat
deriving DecidableEq

/-- The struct `Implementation`: the channel and the timeout
(`time.Duration`, a signed count of nanoseconds). -/
structure Implementation where
  sem : Chan
  timeout : Int
deriving DecidableEq

/-- The builtin `make(chan struct{}, n)`: a run-time panic (`none`) for a
negative size, otherwise an empty channel with buffer size `n`. -/
def makeChan (n : Int) : Option Chan :=
  if n < 0 then none else some { cap := n.toNat, len := 0 }

/-- A send can proceed at once when the buffer is not full. -/
def Chan.canSend (c : Chan) : Bool := decide (c.len < c.cap)

/-- A receive can proceed at once when the buffer is not empty. -/
def Chan.canRecv (c : Chan) : Bool := decide (0 < c.len)

/-- The effect of `c <- struct{}{}` when it proceeds. -/
def Chan.send (c : Chan) : Chan := { c with len := c.len + 1 }

/-- The effect of `<-c` when it proceeds. -/
def Chan.recv (c : Chan) : Chan := { c with len := c.len - 1 }

/-- How the race inside a `select` ends when its channel operation can
proceed. `comm`: the channel operation is taken, because the timer of
`time.After` had not fired when the `select` polled or because it had and the
`select` picked the channel case. `timer`: the timer had fired and the
`select` picked the timer case. Both are possible for every timeout. -/
inductive Pick where
  | comm
  | timer
deriving DecidableEq

/-- The method `Acquire`: the returned error (`none` is `nil`) and the state
after the call. -/
def Acquire (s : Implementation) (pick : Pick) : Option SemError × Implementation :=
  if s.sem.canSend then
    match pick with
    | Pick.comm => (none, { s with sem := s.sem.send })
    | Pick.timer => (some SemError.ErrNoTickets, s)
  else (some SemError.ErrNoTickets, s)

/-- The method `Release`: the returned error (`none` is `nil`) and the state
after the call. -/
def Release (s : Implementation) (pick : Pick) : Option SemError × Implementation :=
  if s.sem.canRecv then
    match pick with
    | Pick.comm => (none, { s with sem := s.sem.recv })
    | Pick.timer => (some SemError.ErrIllegalRelease, s)
  else (some SemError.ErrIllegalRelease, s)

/-- The constructor `NewInterface`; `none` is the panic of `make`. -/
def NewInterface (tickets : Int) (timeout : Int) : Option Implementation :=
  match makeChan tickets with
  | none => none
  | some c => some { sem := c, timeout := timeout }

/-- One call on the semaphore, with the way the race of its `select` ends
when its channel operation can proceed. -/
inductive Call where
  | acquire (pick : Pick)
  | release (pick : Pick)
deriving DecidableEq

/-- The way the race of a call ends. -/
def Call.pick : Call → Pick
  | Call.acquire p => p
  | Call.release p => p

/-- The error in the timeout case of the method a call invokes. -/
def Call.timeoutError : Call → SemError
  | Call.acquire _ => SemError.ErrNoTickets
  | Call.release _ => SemError.ErrIllegalRelease

/-- Performs one call. -/
def step (s : Implementation) : Call → Option SemError × Implementation
  | Call.acquire p => Acquire s p
  | Call.release p => Release s p

/-- Performs the calls one after the other; the result of every call, in
order: the error it returned and the state it left. -/
def run (s : Implementation) : List Call → List (Option SemError × Implementation)
  | [] => []
  | c :: cs => step s c :: run (step s c).2 cs

/-- The state after all the calls. -/
def final (s : Implementation) : List Call → Implementation
  | [] => s
  | c :: cs => final (step s c).2 cs

/-- Successful `Acquire` calls minus successful `Release` calls, counted in
the integers over the results of a run. -/
def balance (s : Implementation) : List Call → Int
  | [] => 0
  | Call.acquire p :: cs =>
      (if (Acquire s p).1 = none then 1 else 0) + balance (Acquire s p).2 cs
  | Call.release p :: cs =>
      (if (Release s p).1 = none then -1 else 0) + balance (Release s p).2 cs

/-- Number of `Acquire` calls in a list. -/
def acquires : List Call → Nat
  | [] => 0
  | Call.acquire _ :: cs => acquires cs + 1
  | Call.release _ :: cs => acquires cs

/-- Number of `Release` calls in a list. -/
def releases : List Call → Nat
  | [] => 0
  | Call.acquire _ :: cs => releases cs
  | Call.release _ :: cs => releases cs + 1

end Semaphore

/-!
The functional options of package functionalOptions
(`functionalOptions/functionalOptions.go`).

A `*RequestOptions` is `none` for the nil pointer and `some r` for a pointer
to a value `r`. An option is a function that is handed such a pointer and
writes through it; here it returns what the pointer refers to after the call.
-/

namespace FunctionalOptions

/-- The struct `RequestOptions`. -/
structure RequestOptions where
  page : Int
  perPage : Int
  sort : String
deriving DecidableEq

/-- The type `Option` of the package, `func(request *RequestOptions)`. -/
abbrev OptionFn := Option RequestOptions → Option RequestOptions

/-- The function `Page`. -/
def Page (p : Int) : OptionFn := fun r =>
  match r with
  | some v => some { v with page := p }
  | none => none

/-- The function `PerPage`. -/
def PerPage (pp : Int) : OptionFn := fun r =>
  match r with
  | some v => some { v with perPage := pp }
  | none => none

/-- The function `Sort` of the package (that name is reserved in Lean). -/
def SortOrder (s : String) : OptionFn := fun r =>
  match r with
  | some v => some { v with sort := s }
  | none => none

/-- The function `NewRequest`: the default values, then every option applied
in argument order to the same pointer, which is returned. -/
def NewRequest (opts : List OptionFn) : Option RequestOptions :=
  opts.foldl (fun r opt => opt r) (some { page := 1, perPage := 30, sort := "desc" })

/-- A call of one of the three option constructors. -/
inductive OptionCall where
  | page (p : Int)
  | perPage (pp : Int)
  | sort (s : String)
deriving DecidableEq

/-- The option a constructor call returns. -/
def OptionCall.build : OptionCall → OptionFn
  | OptionCall.page p => Page p
  | OptionCall.perPage pp => PerPage pp
  | OptionCall.sort s => SortOrder s

/-- The argument of the last `Page` call in a list, if there is one. -/
def lastPage : List OptionCall → Option Int
  | [] => none
  | c :: cs =>
    match lastPage cs with
    | some p => some p
    | none =>
      match c with
      | OptionCall.page p => some p
      | _ => none

/-- The argument of the last `PerPage` call in a list, if there is one. -/
def lastPerPage : List OptionCall → Option Int
  | [] => none
  | c :: cs =>
    match lastPerPage cs with
    | some p => some p
    | none =>
      match c with
      | OptionCall.perPage p => some p
      | _ => none

/-- The argument of the last `Sort` call in a list, if there is one. -/
def lastSort : List OptionCall → Option String
  | [] => none
  | c :: cs =>
    match lastSort cs with
    | some p => some p
    | none =>
      match c with
      | OptionCall.sort p => some p
      | _ => none

end FunctionalOptions

/-!
The notifier of package observerPattern (`observerPattern/observerPattern.go`).

The field `observers map[Observer]struct{}` of a notifier made by
`NewEventNotifier` is the finite set of its keys. `Obs` is the type of the
observers, compared the way Go compares map keys; every observer is one whose
`OnNotify` returns, as that of `EventObserver` does (it only prints). A
`range` over the map visits every key once, in an order Go leaves open, so the
calls `Notify` makes are a multiset.
-/

namespace ObserverPattern

/-- The struct `Event`. -/
structure Event where
  Date : Int
deriving DecidableEq

/-- The struct `EventNotifier`. -/
structure EventNotifier (Obs : Type) where
  observers : Finset Obs

/-- The function `NewEventNotifier`. -/
def NewEventNotifier (Obs : Type) : EventNotifier Obs :=
  { observers := ∅ }

/-- The method `Register`: `en.observers[o] = struct{}{}`. -/
def EventNotifier.Register {Obs : Type} [DecidableEq Obs] (en : EventNotifier Obs)
    (o : Obs) : EventNotifier Obs :=
  { observers := insert o en.observers }

/-- The method `Deregister`: `delete(en.observers, o)`. -/
def EventNotifier.Deregister {Obs : Type} [DecidableEq Obs] (en : EventNotifier Obs)
    (o : Obs) : EventNotifier Obs :=
  { observers := en.observers.erase o }

/-- The method `Notify`: the calls `o.OnNotify(e)` it makes, each as the pair
of the observer and the event, and the notifier after the call. -/
def EventNotifier.Notify {Obs : Type} (en : EventNotifier Obs) (e : Event) :
    Multiset (Obs × Event) × EventNotifier Obs :=
  (en.observers.val.map (fun o => (o, e)), en)

end ObserverPattern

namespace Semaphore

/-! ## Helper lemmas -/

theorem Acquire_raced (s : Implementation) (h : s.sem.len < s.sem.cap) :
    Acquire s Pick.comm = (none, { s with sem := s.sem.send }) ∧
      Acquire s Pick.timer = (some SemError.ErrNoTickets, s) := by
  simp [Acquire, Chan.canSend, h]

theorem Release_raced (s : Implementation) (h : 0 < s.sem.len) :
    Release s Pick.comm = (none, { s with sem := s.sem.recv }) ∧
      Release s Pick.timer = (some SemError.ErrIllegalRelease, s) := by
  simp [Release, Chan.canRecv, h]

theorem Acquire_blocked (s : Implementation) (p : Pick) (h : ¬ s.sem.len < s.sem.cap) :
    Acquire s p = (some SemError.ErrNoTickets, s) := by
  simp [Acquire, Chan.canSend, h]

theorem Release_blocked (s : Implementation) (p : Pick) (h : ¬ 0 < s.sem.len) :
    Release s p = (some SemError.ErrIllegalRelease, s) := by
  simp [Release, Chan.canRecv, h]

theorem Acquire_cap (s : Implementation) (p : Pick) :
    (Acquire s p).2.sem.cap = s.sem.cap ∧ (Acquire s p).2.timeout = s.timeout := by
  unfold Acquire
  split_ifs <;> try (cases p) <;> simp [Chan.send]

theorem Release_cap (s : Implementation) (p : Pick) :
    (Release s p).2.sem.cap = s.sem.cap ∧ (Release s p).2.timeout = s.timeout := by
  unfold Release
  split_ifs <;> try (cases p) <;> simp [Chan.recv]

theorem step_cap (s : Implementation) (c : Call) :
    (step s c).2.sem.cap = s.sem.cap ∧ (step s c).2.timeout = s.timeout := by
  cases c with
  | acquire p => exact Acquire_cap s p
  | release p => exact Release_cap s p

theorem Acquire_len_le (s : Implementation) (p : Pick) (h : s.sem.len ≤ s.sem.cap) :
    (Acquire s p).2.sem.len ≤ s.sem.cap := by
  unfold Acquire
  by_cases hs : s.sem.len < s.sem.cap
  · cases p <;> simp [Chan.canSend, Chan.send, hs] <;> omega
  · simp [Chan.canSend, hs, h]

theorem Release_len_le (s : Implementation) (p : Pick) (h : s.sem.len ≤ s.sem.cap) :
    (Release s p).2.sem.len ≤ s.sem.cap := by
  unfold Release
  by_cases hs : 0 < s.sem.len
  · cases p <;> simp [Chan.canRecv, Chan.recv, hs] <;> omega
  · simp [Chan.canRecv, hs, h]

theorem step_len_le (s : Implementation) (c : Call) (h : s.sem.len ≤ s.sem.cap) :
    (step s c).2.sem.len ≤ s.sem.cap := by
  cases c with
  | acquire p => exact Acquire_len_le s p h
  | release p => exact Release_len_le s p h

theorem run_len_le (s : Implementation) (cs : List Call) (h : s.sem.len ≤ s.sem.cap) :
    ∀ r ∈ run s cs, r.2.sem.len ≤ s.sem.cap := by
  induction cs generalizing s with
  | nil => intro r hr; simp [run] at hr
  | cons c cs ih =>
    intro r hr
    simp only [run, List.mem_cons] at hr
    rcases hr with hr | hr
    · subst hr; exact step_len_le s c h
    · have h2 := ih (step s c).2 (by rw [(step_cap s c).1]; exact step_len_le s c h) r hr
      rwa [(step_cap s c).1] at h2

theorem Acquire_balance (s : Implementation) (p : Pick) :
    ((Acquire s p).2.sem.len : Int) = s.sem.len + (if (Acquire s p).1 = none then 1 else 0) := by
  unfold Acquire
  by_cases hs : s.sem.len < s.sem.cap <;> cases p <;>
    simp [Chan.canSend, Chan.send, hs]

theorem Release_balance (s : Implementation) (p : Pick) :
    ((Release s p).2.sem.len : Int) = s.sem.len + (if (Release s p).1 = none then -1 else 0) := by
  by_cases hs : 0 < s.sem.len
  · cases p with
    | comm =>
      rw [(Release_raced s hs).1]
      simp only [Chan.recv, if_true]
      omega
    | timer =>
      rw [(Release_raced s hs).2]
      simp
  · rw [Release_blocked s p hs]
    simp

theorem final_balance (s : Implementation) (cs : List Call) :
    ((final s cs).sem.len : Int) = s.sem.len + balance s cs := by
  induction cs generalizing s with
  | nil => simp [final, balance]
  | cons c cs ih =>
    cases c with
    | acquire p =>
      simp only [final, balance, step]
      rw [ih, Acquire_balance]; ring
    | release p =>
      simp only [final, balance, step]
      rw [ih, Release_balance]; ring

theorem final_len_le (s : Implementation) (cs : List Call) (h : s.sem.len ≤ s.sem.cap) :
    (final s cs).sem.len ≤ s.sem.cap := by
  induction cs generalizing s with
  | nil => simpa [final] using h
  | cons c cs ih =>
    simp only [final]
    have h2 := ih (step s c).2 (by rw [(step_cap s c).1]; exact step_len_le s c h)
    rwa [(step_cap s c).1] at h2

theorem NewInterface_fresh (tickets timeout : Int) (h : 0 ≤ tickets) :
    NewInterface tickets timeout
      = some { sem := { cap := tickets.toNat, len := 0 }, timeout := timeout } := by
  have h2 : ¬ tickets < 0 := by omega
  simp [NewInterface, makeChan, h2]

/-- On a semaphore with `n` free tickets, `n` further `Acquire` calls whose
`select` takes the send return nil, and the next `Acquire` returns
`ErrNoTickets` however its race ends. -/
theorem run_acquires (n : Nat) (s : Implementation) (last : Pick)
    (hn : s.sem.len + n = s.sem.cap) :
    (run s ((List.replicate n Pick.comm ++ [last]).map Call.acquire)).map Prod.fst
      = List.replicate n none ++ [some SemError.ErrNoTickets] := by
  induction n generalizing s with
  | zero =>
    have hb : ¬ s.sem.len < s.sem.cap := by omega
    simp [run, step, Acquire_blocked s last hb]
  | succ n ih =>
    have ha : s.sem.len < s.sem.cap := by omega
    have h2 := ih { s with sem := s.sem.send } (by simp only [Chan.send]; omega)
    simp only [List.replicate_succ, List.cons_append, List.map_cons, run, step,
      (Acquire_raced s ha).1]
    exact congrArg (List.cons none) h2

/-- A sequence of calls whose every prefix keeps the number of unmatched
`Acquire` calls between 0 and the free capacity, and in which every `select`
takes its channel case, runs without error. -/
theorem run_matched (s : Implementation) (cs : List Call)
    (hpick : ∀ c ∈ cs, c.pick = Pick.comm)
    (hpre : ∀ k, releases (cs.take k) ≤ s.sem.len + acquires (cs.take k) ∧
      s.sem.len + acquires (cs.take k) ≤ s.sem.cap + releases (cs.take k)) :
    (∀ r ∈ run s cs, r.1 = none) ∧
      (final s cs).sem.len + releases cs = s.sem.len + acquires cs := by
  induction cs generalizing s with
  | nil => simp [run, final, acquires, releases]
  | cons c cs ih =>
    have h1 := hpre 1
    have hc := hpick c (List.mem_cons_self c cs)
    have hrest : ∀ d ∈ cs, d.pick = Pick.comm := fun d hd =>
      hpick d (List.mem_cons_of_mem c hd)
    cases c with
    | acquire p =>
      simp only [Call.pick] at hc
      subst hc
      simp only [List.take_succ_cons, List.take_zero, acquires, releases] at h1
      have ha : s.sem.len < s.sem.cap := by omega
      have hstep := (Acquire_raced s ha).1
      have h2 := ih { s with sem := s.sem.send } hrest (by
        intro k
        have hk := hpre (k + 1)
        simp only [List.take_succ_cons, acquires, releases] at hk
        simp only [Chan.send]
        omega)
      simp only [Chan.send] at h2
      refine ⟨?_, ?_⟩
      · intro r hr
        simp only [run, step, hstep, List.mem_cons] at hr
        rcases hr with hr | hr
        · rw [hr]
        · exact h2.1 r hr
      · simp only [final, step, hstep, acquires, releases]
        have := h2.2
        simp only [Chan.send] at this ⊢
        omega
    | release p =>
      simp only [Call.pick] at hc
      subst hc
      simp only [List.take_succ_cons, List.take_zero, acquires, releases] at h1
      have ha : 0 < s.sem.len := by omega
      have hstep := (Release_raced s ha).1
      have h2 := ih { s with sem := s.sem.recv } hrest (by
        intro k
        have hk := hpre (k + 1)
        simp only [List.take_succ_cons, acquires, releases] at hk
        simp only [Chan.recv]
        omega)
      simp only [Chan.recv] at h2
      refine ⟨?_, ?_⟩
      · intro r hr
        simp only [run, step, hstep, List.mem_cons] at hr
        rcases hr with hr | hr
        · rw [hr]
        · exact h2.1 r hr
      · simp only [final, step, hstep, acquires, releases]
        have := h2.2
        simp only [Chan.recv] at this ⊢
        omega

/-- On a semaphore of capacity zero every call that no other call overlaps
returns its timeout error and leaves the state as it is. -/
theorem run_zero_capacity (timeout : Int) (cs : List Call) :
    run { sem := { cap := 0, len := 0 }, timeout := timeout } cs
      = cs.map (fun c =>
          (some c.timeoutError, { sem := { cap := 0, len := 0 }, timeout := timeout })) := by
  induction cs with
  | nil => rfl
  | cons c cs ih =>
    cases c with
    | acquire p =>
      have hstep := Acquire_blocked
        { sem := { cap := 0, len := 0 }, timeout := timeout } p (by simp)
      simp only [run, step, hstep, List.map_cons, Call.timeoutError, ih]
    | release p =>
      have hstep := Release_blocked
        { sem := { cap := 0, len := 0 }, timeout := timeout } p (by simp)
      simp only [run, step, hstep, List.map_cons, Call.timeoutError, ih]

theorem run_frame (s : Implementation) (cs : List Call) :
    ∀ r ∈ run s cs, r.2.sem.cap = s.sem.cap ∧ r.2.timeout = s.timeout := by
  induction cs generalizing s with
  | nil => intro r hr; simp [run] at hr
  | cons c cs ih =>
    intro r hr
    simp only [run, List.mem_cons] at hr
    rcases hr with hr | hr
    · subst hr; exact step_cap s c
    · have h2 := ih (step s c).2 r hr
      rw [(step_cap s c).1, (step_cap s c).2] at h2
      exact h2

/-! ## Claims -/

/-- C1: on a semaphore fresh from `NewInterface` with capacity at least one,
after every call of any finite sequence of `Acquire` and `Release` calls the
number of outstanding tickets is at least 0 and at most the capacity, whatever
the calls returned; after every prefix it equals the number of successful
`Acquire` calls minus the number of successful `Release` calls, counted in the
integers, which therefore also stays between 0 and the capacity. -/
theorem outstanding_within_capacity (tickets timeout : Int) (h : 1 ≤ tickets)
    (calls : List Call) :
    ∃ s, NewInterface tickets timeout = some s ∧ s.sem.len = 0 ∧
      (s.sem.cap : Int) = tickets ∧
      (∀ r ∈ run s calls, 0 ≤ r.2.sem.len ∧ (r.2.sem.len : Int) ≤ tickets) ∧
      (∀ k, ((final s (calls.take k)).sem.len : Int) = balance s (calls.take k) ∧
        0 ≤ balance s (calls.take k) ∧ balance s (calls.take k) ≤ tickets) := by
  refine ⟨_, NewInterface_fresh tickets timeout (by omega), rfl, ?_, ?_, ?_⟩
  · simp only [Int.toNat_of_nonneg (show (0 : Int) ≤ tickets by omega)]
  · intro r hr
    have hb := run_len_le
      { sem := { cap := tickets.toNat, len := 0 }, timeout := timeout } calls
      (Nat.zero_le _) r hr
    simp only at hb
    constructor
    · exact Nat.zero_le _
    · omega
  · intro k
    have hf := final_balance
      { sem := { cap := tickets.toNat, len := 0 }, timeout := timeout } (calls.take k)
    have hl := final_len_le
      { sem := { cap := tickets.toNat, len := 0 }, timeout := timeout } (calls.take k)
      (Nat.zero_le _)
    simp only [Nat.cast_zero, zero_add] at hf
    simp only at hl
    refine ⟨hf, ?_, ?_⟩ <;> omega

/-- Witness of C1: capacity 2, timeout 1, three `Acquire` calls then two
`Release` calls. -/
theorem outstanding_within_capacity_witness :
    ∃ s, NewInterface 2 1 = some s ∧ s.sem.len = 0 ∧
      (s.sem.cap : Int) = 2 ∧
      (∀ r ∈ run s [Call.acquire Pick.comm, Call.acquire Pick.timer,
          Call.acquire Pick.comm, Call.release Pick.comm, Call.release Pick.timer],
        0 ≤ r.2.sem.len ∧ (r.2.sem.len : Int) ≤ 2) ∧
      (∀ k, ((final s (List.take k [Call.acquire Pick.comm, Call.acquire Pick.timer,
          Call.acquire Pick.comm, Call.release Pick.comm, Call.release Pick.timer])).sem.len
            : Int)
          = balance s (List.take k [Call.acquire Pick.comm, Call.acquire Pick.timer,
          Call.acquire Pick.comm, Call.release Pick.comm, Call.release Pick.timer]) ∧
        0 ≤ balance s (List.take k [Call.acquire Pick.comm, Call.acquire Pick.timer,
          Call.acquire Pick.comm, Call.release Pick.comm, Call.release Pick.timer]) ∧
        balance s (List.take k [Call.acquire Pick.comm, Call.acquire Pick.timer,
          Call.acquire Pick.comm, Call.release Pick.comm, Call.release Pick.timer]) ≤ 2) :=
  outstanding_within_capacity 2 1 (by decide)
    [Call.acquire Pick.comm, Call.acquire Pick.timer,
      Call.acquire Pick.comm, Call.release Pick.comm, Call.release Pick.timer]

/-- Counterexample to C2 as stated: with capacity 2, nothing outstanding and
a timeout of 1 nanosecond, `Acquire` can return `ErrNoTickets` and leave the
count at 0 although a ticket is available: the timer has fired by the time
the `select` polls, and the `select` picks it. -/
theorem Acquire_available_counterexample :
    (0 : Nat) < 2 ∧ (0 : Int) < 1 ∧
      Acquire { sem := { cap := 2, len := 0 }, timeout := 1 } Pick.timer
        = (some SemError.ErrNoTickets,
            { sem := { cap := 2, len := 0 }, timeout := 1 }) := by
  decide

/-- C2 (amended): in a state with fewer outstanding tickets than the capacity,
for every timeout, `Acquire` has two outcomes. When its `select` takes the
send it returns nil and the outstanding count is the previous count plus one,
nothing else changing. When the timer has fired by the time the `select`
polls and the `select` picks it, `Acquire` returns `ErrNoTickets` and leaves
the state unchanged. -/
theorem Acquire_available (s : Implementation) (h : s.sem.len < s.sem.cap) :
    Acquire s Pick.comm
        = (none, { sem := { cap := s.sem.cap, len := s.sem.len + 1 },
                   timeout := s.timeout }) ∧
      Acquire s Pick.timer = (some SemError.ErrNoTickets, s) ∧
      ∀ pick, ((Acquire s pick).1 = none ∧
            (Acquire s pick).2.sem.len = s.sem.len + 1) ∨
          ((Acquire s pick).1 = some SemError.ErrNoTickets ∧ (Acquire s pick).2 = s) := by
  have hr := Acquire_raced s h
  refine ⟨hr.1, hr.2, ?_⟩
  intro pick
  cases pick with
  | comm => left; rw [hr.1]; exact ⟨rfl, rfl⟩
  | timer => right; rw [hr.2]; exact ⟨rfl, rfl⟩

/-- Witness of C2 (amended): capacity 10, 3 outstanding, timeout of 6
seconds. -/
theorem Acquire_available_witness :
    Acquire (Implementation.mk (Chan.mk 10 3) 6000000000) Pick.comm
        = (none, { sem := { cap := (Implementation.mk (Chan.mk 10 3) 6000000000).sem.cap,
                            len := (Implementation.mk (Chan.mk 10 3) 6000000000).sem.len + 1 },
                   timeout := (Implementation.mk (Chan.mk 10 3) 6000000000).timeout }) ∧
      Acquire (Implementation.mk (Chan.mk 10 3) 6000000000) Pick.timer
        = (some SemError.ErrNoTickets, Implementation.mk (Chan.mk 10 3) 6000000000) ∧
      ∀ pick, ((Acquire (Implementation.mk (Chan.mk 10 3) 6000000000) pick).1 = none ∧
            (Acquire (Implementation.mk (Chan.mk 10 3) 6000000000) pick).2.sem.len
              = (Implementation.mk (Chan.mk 10 3) 6000000000).sem.len + 1) ∨
          ((Acquire (Implementation.mk (Chan.mk 10 3) 6000000000) pick).1
              = some SemError.ErrNoTickets ∧
            (Acquire (Implementation.mk (Chan.mk 10 3) 6000000000) pick).2
              = Implementation.mk (Chan.mk 10 3) 6000000000) :=
  Acquire_available (Implementation.mk (Chan.mk 10 3) 6000000000) (by decide)

/-- C3: in a state where the outstanding count equals the capacity, a call of
`Acquire` during which no `Release` happens returns `ErrNoTickets` and leaves
the state, hence the outstanding count, unchanged. -/
theorem Acquire_full (s : Implementation) (pick : Pick) (h : s.sem.len = s.sem.cap) :
    (Acquire s pick).1 = some SemError.ErrNoTickets ∧ (Acquire s pick).2 = s ∧
      (Acquire s pick).2.sem.len = s.sem.len := by
  simp [Acquire, Chan.canSend, h]

/-- Witness of C3: capacity 10 with all 10 tickets outstanding. -/
theorem Acquire_full_witness :
    (Acquire { sem := { cap := 10, len := 10 }, timeout := 6000000000 } Pick.comm).1
        = some SemError.ErrNoTickets ∧
      (Acquire { sem := { cap := 10, len := 10 }, timeout := 6000000000 } Pick.comm).2
        = { sem := { cap := 10, len := 10 }, timeout := 6000000000 } ∧
      (Acquire { sem := { cap := 10, len := 10 }, timeout := 6000000000 } Pick.comm).2.sem.len
        = 10 :=
  Acquire_full { sem := { cap := 10, len := 10 }, timeout := 6000000000 } Pick.comm rfl

/-- C4: in a state with no outstanding ticket, a call of `Release` during
which no `Acquire` happens returns `ErrIllegalRelease` and leaves the state
unchanged: the outstanding count stays 0. -/
theorem Release_empty (s : Implementation) (pick : Pick) (h : s.sem.len = 0) :
    (Release s pick).1 = some SemError.ErrIllegalRelease ∧ (Release s pick).2 = s ∧
      (Release s pick).2.sem.len = 0 := by
  simp [Release, Chan.canRecv, h]

/-- Witness of C4: capacity 10, nothing outstanding. -/
theorem Release_empty_witness :
    (Release { sem := { cap := 10, len := 0 }, timeout := 6000000000 } Pick.comm).1
        = some SemError.ErrIllegalRelease ∧
      (Release { sem := { cap := 10, len := 0 }, timeout := 6000000000 } Pick.comm).2
        = { sem := { cap := 10, len := 0 }, timeout := 6000000000 } ∧
      (Release { sem := { cap := 10, len := 0 }, timeout := 6000000000 } Pick.comm).2.sem.len
        = 0 :=
  Release_empty { sem := { cap := 10, len := 0 }, timeout := 6000000000 } Pick.comm rfl

/-- Counterexample to C5 as stated: with capacity 1, nothing outstanding and a
timeout of 1, the outstanding count is below the capacity, yet `Release`
returns `ErrIllegalRelease` and decrements nothing; and with capacity 10,
3 tickets outstanding and a timeout of 1 nanosecond, `Release` can return
`ErrIllegalRelease` too, when the timer has fired and its `select` picks
it. -/
theorem Release_below_capacity_counterexample :
    ((0 : Nat) < 1 ∧
      Release { sem := { cap := 1, len := 0 }, timeout := 1 } Pick.comm
        = (some SemError.ErrIllegalRelease,
            { sem := { cap := 1, len := 0 }, timeout := 1 })) ∧
    ((3 : Nat) < 10 ∧
      Release { sem := { cap := 10, len := 3 }, timeout := 1 } Pick.timer
        = (some SemError.ErrIllegalRelease,
            { sem := { cap := 10, len := 3 }, timeout := 1 })) := by
  decide

/-- C5 (amended): in a state with at least one outstanding ticket, whether or
not the count is below the capacity and for every timeout, `Release` has two
outcomes. When its `select` takes the receive it returns nil and decrements
the outstanding count by one, nothing else changing. When the timer has fired
by the time the `select` polls and the `select` picks it, `Release` returns
`ErrIllegalRelease` and leaves the state unchanged. -/
theorem Release_outstanding (s : Implementation) (h : 1 ≤ s.sem.len) :
    Release s Pick.comm
        = (none, { sem := { cap := s.sem.cap, len := s.sem.len - 1 },
                   timeout := s.timeout }) ∧
      (Release s Pick.comm).2.sem.len + 1 = s.sem.len ∧
      Release s Pick.timer = (some SemError.ErrIllegalRelease, s) ∧
      ∀ pick, ((Release s pick).1 = none ∧
            (Release s pick).2.sem.len + 1 = s.sem.len) ∨
          ((Release s pick).1 = some SemError.ErrIllegalRelease ∧
            (Release s pick).2 = s) := by
  have hr := Release_raced s (by omega)
  have hlen : (Release s Pick.comm).2.sem.len + 1 = s.sem.len := by
    rw [hr.1]
    show s.sem.len - 1 + 1 = s.sem.len
    omega
  refine ⟨hr.1, hlen, hr.2, ?_⟩
  intro pick
  cases pick with
  | comm => left; exact ⟨by rw [hr.1], hlen⟩
  | timer => right; rw [hr.2]; exact ⟨rfl, rfl⟩

/-- Witness of C5 (amended): capacity 10 with all 10 tickets outstanding. -/
theorem Release_outstanding_witness :
    Release (Implementation.mk (Chan.mk 10 10) 6000000000) Pick.comm
        = (none, { sem := { cap := (Implementation.mk (Chan.mk 10 10) 6000000000).sem.cap,
                            len := (Implementation.mk (Chan.mk 10 10) 6000000000).sem.len - 1 },
                   timeout := (Implementation.mk (Chan.mk 10 10) 6000000000).timeout }) ∧
      (Release (Implementation.mk (Chan.mk 10 10) 6000000000) Pick.comm).2.sem.len + 1
        = (Implementation.mk (Chan.mk 10 10) 6000000000).sem.len ∧
      Release (Implementation.mk (Chan.mk 10 10) 6000000000) Pick.timer
        = (some SemError.ErrIllegalRelease, Implementation.mk (Chan.mk 10 10) 6000000000) ∧
      ∀ pick, ((Release (Implementation.mk (Chan.mk 10 10) 6000000000) pick).1 = none ∧
            (Release (Implementation.mk (Chan.mk 10 10) 6000000000) pick).2.sem.len + 1
              = (Implementation.mk (Chan.mk 10 10) 6000000000).sem.len) ∨
          ((Release (Implementation.mk (Chan.mk 10 10) 6000000000) pick).1
              = some SemError.ErrIllegalRelease ∧
            (Release (Implementation.mk (Chan.mk 10 10) 6000000000) pick).2
              = Implementation.mk (Chan.mk 10 10) 6000000000) :=
  Release_outstanding (Implementation.mk (Chan.mk 10 10) 6000000000) (by decide)

/-- Counterexample to C6 as stated: with capacity 2, nothing outstanding and a
timeout of 1 nanosecond, `Acquire` can return nil and the `Release` issued
right after it can return `ErrIllegalRelease`, the timer having fired and its
`select` picking it; the count is then 1, not the 0 it was before the
pair. -/
theorem Acquire_Release_counterexample :
    (Acquire { sem := { cap := 2, len := 0 }, timeout := 1 } Pick.comm).1 = none ∧
      Release (Acquire { sem := { cap := 2, len := 0 }, timeout := 1 } Pick.comm).2 Pick.timer
        = (some SemError.ErrIllegalRelease,
            { sem := { cap := 2, len := 1 }, timeout := 1 }) := by
  decide

/-- C6 (amended): in every state and for every timeout, if `Acquire` returns
nil then the `Release` issued right after it can proceed at once, also when
the `Acquire` filled the pool to exactly the capacity. When its `select`
takes the receive it returns nil and the pair leaves the state, hence the
outstanding count, as it was before the `Acquire`. When the timer has fired by
the time the `select` polls and the `select` picks it, `Release` returns
`ErrIllegalRelease` and the acquired ticket stays outstanding. -/
theorem Acquire_Release (s : Implementation) (p : Pick)
    (ha : (Acquire s p).1 = none) :
    Release (Acquire s p).2 Pick.comm = (none, s) ∧
      (Release (Acquire s p).2 Pick.comm).2.sem.len = s.sem.len ∧
      Release (Acquire s p).2 Pick.timer
        = (some SemError.ErrIllegalRelease, (Acquire s p).2) ∧
      (Acquire s p).2.sem.len = s.sem.len + 1 := by
  by_cases hs : s.sem.len < s.sem.cap
  · cases p with
    | comm =>
      have hr := Release_raced { s with sem := s.sem.send } (by simp [Chan.send])
      rw [(Acquire_raced s hs).1]
      refine ⟨?_, ?_, hr.2, rfl⟩
      · show Release { s with sem := s.sem.send } Pick.comm = (none, s)
        rw [hr.1]
        simp [Chan.send, Chan.recv]
      · show (Release { s with sem := s.sem.send } Pick.comm).2.sem.len = s.sem.len
        rw [hr.1]
        simp [Chan.send, Chan.recv]
    | timer =>
      rw [(Acquire_raced s hs).2] at ha
      simp at ha
  · rw [Acquire_blocked s p hs] at ha
    simp at ha

/-- Witness of C6 (amended): capacity 10 with 9 tickets outstanding, so that
the `Acquire` fills the pool to exactly the capacity. -/
theorem Acquire_Release_witness :
    Release (Acquire (Implementation.mk (Chan.mk 10 9) 6000000000) Pick.comm).2 Pick.comm
        = (none, Implementation.mk (Chan.mk 10 9) 6000000000) ∧
      (Release (Acquire (Implementation.mk (Chan.mk 10 9) 6000000000) Pick.comm).2
        Pick.comm).2.sem.len = (Implementation.mk (Chan.mk 10 9) 6000000000).sem.len ∧
      Release (Acquire (Implementation.mk (Chan.mk 10 9) 6000000000) Pick.comm).2 Pick.timer
        = (some SemError.ErrIllegalRelease,
            (Acquire (Implementation.mk (Chan.mk 10 9) 6000000000) Pick.comm).2) ∧
      (Acquire (Implementation.mk (Chan.mk 10 9) 6000000000) Pick.comm).2.sem.len
        = (Implementation.mk (Chan.mk 10 9) 6000000000).sem.len + 1 :=
  Acquire_Release (Implementation.mk (Chan.mk 10 9) 6000000000) Pick.comm (by decide)

/-- Counterexample to C7 as stated: on the fresh semaphore
`NewInterface(2, 1)`, timeout 1 nanosecond, the very first `Acquire` can
return `ErrNoTickets`, the timer having fired and its `select` picking it. -/
theorem first_acquires_counterexample :
    NewInterface 2 1 = some { sem := { cap := 2, len := 0 }, timeout := 1 } ∧
      (run { sem := { cap := 2, len := 0 }, timeout := 1 }
        [Call.acquire Pick.timer]).map Prod.fst = [some SemError.ErrNoTickets] := by
  decide

/-- C7 (amended): for every N at least 1 and every timeout, on a fresh
semaphore `NewInterface(N, timeout)`, N `Acquire` calls with no `Release` in
between whose `select` each takes the send all return nil, and the next
`Acquire`, still with no `Release`, returns `ErrNoTickets` however its race
ends. (One of the first N returns `ErrNoTickets` only when the timer has fired
by the time its `select` polls and the `select` picks it.) -/
theorem first_acquires (N : Nat) (timeout : Int) (hN : 1 ≤ N) (last : Pick) :
    ∃ s, NewInterface N timeout = some s ∧
      (run s ((List.replicate N Pick.comm ++ [last]).map Call.acquire)).map Prod.fst
        = List.replicate N none ++ [some SemError.ErrNoTickets] := by
  refine ⟨_, NewInterface_fresh N timeout (by omega), ?_⟩
  exact run_acquires N _ last (by simp)

/-- Witness of C7 (amended): the example program, 10 tickets and a timeout of
6 seconds: the first 10 `Acquire` calls return nil and the 11th returns
`ErrNoTickets`. -/
theorem first_acquires_witness :
    ∃ s, NewInterface (10 : Nat) 6000000000 = some s ∧
      (run s ((List.replicate 10 Pick.comm ++ [Pick.comm]).map Call.acquire)).map Prod.fst
        = List.replicate 10 none ++ [some SemError.ErrNoTickets] :=
  first_acquires 10 6000000000 (by decide) Pick.comm

/-- Counterexample to C8 as stated: on the fresh semaphore
`NewInterface(2, 1)`, timeout 1 nanosecond, the matched pair `Acquire`,
`Release` need not return nil twice: the `Acquire` can return nil and the
`Release` then return `ErrIllegalRelease`, which leaves the outstanding count
at 1. -/
theorem matched_pairs_counterexample :
    NewInterface 2 1 = some { sem := { cap := 2, len := 0 }, timeout := 1 } ∧
      (acquires [Call.acquire Pick.comm, Call.release Pick.timer]
        = releases [Call.acquire Pick.comm, Call.release Pick.timer]) ∧
      (run { sem := { cap := 2, len := 0 }, timeout := 1 }
        [Call.acquire Pick.comm, Call.release Pick.timer]).map Prod.fst
        = [none, some SemError.ErrIllegalRelease] ∧
      (final { sem := { cap := 2, len := 0 }, timeout := 1 }
        [Call.acquire Pick.comm, Call.release Pick.timer]).sem.len = 1 := by
  decide

/-- C8 (amended): for every capacity at least 1 and every timeout, a sequence
of calls on a fresh semaphore in which every prefix has at least as many
`Acquire` as `Release` calls and at most capacity more, which has as many
`Release` as `Acquire` calls in all, and in which the `select` of every call
takes its channel case (no call loses the race to a timer that has already
fired), makes every call return nil and ends with an outstanding count
of 0. -/
theorem matched_pairs (tickets timeout : Int) (h : 1 ≤ tickets) (calls : List Call)
    (hpick : ∀ c ∈ calls, c.pick = Pick.comm)
    (hpre : ∀ k, releases (calls.take k) ≤ acquires (calls.take k) ∧
      (acquires (calls.take k) : Int) - releases (calls.take k) ≤ tickets)
    (htot : acquires calls = releases calls) :
    ∃ s, NewInterface tickets timeout = some s ∧ s.sem.len = 0 ∧
      (∀ r ∈ run s calls, r.1 = none) ∧ (final s calls).sem.len = 0 := by
  refine ⟨_, NewInterface_fresh tickets timeout (by omega), rfl, ?_⟩
  have hm := run_matched
    { sem := { cap := tickets.toNat, len := 0 }, timeout := timeout } calls hpick (by
      intro k
      have hk := hpre k
      simp only
      omega)
  simp only at hm
  refine ⟨hm.1, ?_⟩
  have := hm.2
  omega

/-- Witness of C8 (amended): capacity 2, timeout of 6 seconds, the calls
`Acquire`, `Acquire`, `Release`, `Acquire`, `Release`, `Release`. -/
theorem matched_pairs_witness :
    ∃ s, NewInterface 2 6000000000 = some s ∧ s.sem.len = 0 ∧
      (∀ r ∈ run s [Call.acquire Pick.comm, Call.acquire Pick.comm, Call.release Pick.comm,
          Call.acquire Pick.comm, Call.release Pick.comm, Call.release Pick.comm],
        r.1 = none) ∧
      (final s [Call.acquire Pick.comm, Call.acquire Pick.comm, Call.release Pick.comm,
          Call.acquire Pick.comm, Call.release Pick.comm, Call.release Pick.comm]).sem.len
        = 0 :=
  matched_pairs 2 6000000000 (by decide)
    [Call.acquire Pick.comm, Call.acquire Pick.comm, Call.release Pick.comm,
      Call.acquire Pick.comm, Call.release Pick.comm, Call.release Pick.comm]
    (by decide)
    (by
      intro k
      match k with
      | 0 => decide
      | 1 => decide
      | 2 => decide
      | 3 => decide
      | 4 => decide
      | 5 => decide
      | k + 6 => simp [acquires, releases])
    (by decide)

/-- C9: in every state `Acquire` returns nil or `ErrNoTickets`, never
`ErrIllegalRelease`, and `Release` returns nil or `ErrIllegalRelease`, never
`ErrNoTickets`; both always return: a failure is the returned error value and
leaves the state as it was. -/
theorem errors_of_calls (s : Implementation) (pick : Pick) :
    (∃ e t, Acquire s pick = (e, t) ∧ (e = none ∨ e = some SemError.ErrNoTickets) ∧
        e ≠ some SemError.ErrIllegalRelease ∧ (e ≠ none → t = s)) ∧
      (∃ e t, Release s pick = (e, t) ∧ (e = none ∨ e = some SemError.ErrIllegalRelease) ∧
        e ≠ some SemError.ErrNoTickets ∧ (e ≠ none → t = s)) := by
  constructor
  · refine ⟨(Acquire s pick).1, (Acquire s pick).2, rfl, ?_⟩
    unfold Acquire
    split_ifs <;> cases pick <;> simp
  · refine ⟨(Release s pick).1, (Release s pick).2, rfl, ?_⟩
    unfold Release
    split_ifs <;> cases pick <;> simp

/-- Counterexample to C10 as stated: `NewInterface(0, 1)` returns a semaphore
whose capacity is zero, and `NewInterface(-1, 1)` panics. -/
theorem NewInterface_nonpositive_counterexample :
    NewInterface 0 1 = some { sem := { cap := 0, len := 0 }, timeout := 1 } ∧
      NewInterface (-1) 1 = none := by
  decide

/-- C10 (amended): `NewInterface` does not validate its capacity. For tickets
equal to 0 it returns a semaphore of capacity zero, on which every `Acquire`
that no `Release` overlaps returns `ErrNoTickets` and every `Release` that no
`Acquire` overlaps returns `ErrIllegalRelease`, each leaving the state
unchanged; for negative tickets it panics. -/
theorem NewInterface_nonpositive (tickets timeout : Int) (h : tickets ≤ 0) :
    NewInterface tickets timeout
        = (if tickets = 0 then some { sem := { cap := 0, len := 0 }, timeout := timeout }
            else none) ∧
      (∀ pick, Acquire { sem := { cap := 0, len := 0 }, timeout := timeout } pick
        = (some SemError.ErrNoTickets,
            { sem := { cap := 0, len := 0 }, timeout := timeout })) ∧
      (∀ pick, Release { sem := { cap := 0, len := 0 }, timeout := timeout } pick
        = (some SemError.ErrIllegalRelease,
            { sem := { cap := 0, len := 0 }, timeout := timeout })) ∧
      ∀ calls, run { sem := { cap := 0, len := 0 }, timeout := timeout } calls
        = calls.map (fun c =>
            (some c.timeoutError,
              { sem := { cap := 0, len := 0 }, timeout := timeout })) := by
  refine ⟨?_, ?_, ?_, run_zero_capacity timeout⟩
  · by_cases h0 : tickets = 0
    · subst h0; simp [NewInterface, makeChan]
    · have hneg : tickets < 0 := by omega
      simp [NewInterface, makeChan, hneg, h0]
  · intro pick
    exact Acquire_blocked _ pick (by simp)
  · intro pick
    exact Release_blocked _ pick (by simp)

/-- Witness of C10 (amended): tickets equal to 0 with a timeout of 6
seconds. -/
theorem NewInterface_nonpositive_witness :
    NewInterface 0 6000000000
        = (if (0 : Int) = 0
            then some { sem := { cap := 0, len := 0 }, timeout := 6000000000 }
            else none) ∧
      (∀ pick, Acquire { sem := { cap := 0, len := 0 }, timeout := 6000000000 } pick
        = (some SemError.ErrNoTickets,
            { sem := { cap := 0, len := 0 }, timeout := 6000000000 })) ∧
      (∀ pick, Release { sem := { cap := 0, len := 0 }, timeout := 6000000000 } pick
        = (some SemError.ErrIllegalRelease,
            { sem := { cap := 0, len := 0 }, timeout := 6000000000 })) ∧
      ∀ calls, run { sem := { cap := 0, len := 0 }, timeout := 6000000000 } calls
        = calls.map (fun c =>
            (some c.timeoutError,
              { sem := { cap := 0, len := 0 }, timeout := 6000000000 })) :=
  NewInterface_nonpositive 0 6000000000 (by decide)

/-- Counterexample to C11 as stated: with capacity 10, 3 tickets outstanding
and a timeout of zero, `Acquire` can return `ErrNoTickets` although a ticket
is available and `Release` can return `ErrIllegalRelease` although a ticket
can be returned, each when its `select` picks the timer; the state is left as
it was. -/
theorem zero_timeout_counterexample :
    ((3 : Nat) < 10 ∧
      Acquire { sem := { cap := 10, len := 3 }, timeout := 0 } Pick.timer
        = (some SemError.ErrNoTickets,
            { sem := { cap := 10, len := 3 }, timeout := 0 })) ∧
    ((1 : Nat) ≤ 3 ∧
      Release { sem := { cap := 10, len := 3 }, timeout := 0 } Pick.timer
        = (some SemError.ErrIllegalRelease,
            { sem := { cap := 10, len := 3 }, timeout := 0 })) := by
  decide

/-- C11 (amended): with a timeout of zero, `Acquire` returns `ErrNoTickets`
when the outstanding count equals the capacity and `Release` returns
`ErrIllegalRelease` when it is 0, both leaving the state unchanged. When the
operation can complete at once (count below the capacity for `Acquire`, at
least 1 for `Release`) the `select` has two cases that can proceed: the call
either completes the operation and returns nil, or returns its timeout error
and leaves the state unchanged, as the `select` picks. -/
theorem zero_timeout (s : Implementation) (h0 : s.timeout = 0) :
    (s.sem.len = s.sem.cap →
        ∀ pick, Acquire s pick = (some SemError.ErrNoTickets, s)) ∧
      (s.sem.len < s.sem.cap →
        Acquire s Pick.comm
            = (none, { sem := { cap := s.sem.cap, len := s.sem.len + 1 }, timeout := 0 }) ∧
          Acquire s Pick.timer = (some SemError.ErrNoTickets, s)) ∧
      (s.sem.len = 0 →
        ∀ pick, Release s pick = (some SemError.ErrIllegalRelease, s)) ∧
      (1 ≤ s.sem.len →
        Release s Pick.comm
            = (none, { sem := { cap := s.sem.cap, len := s.sem.len - 1 }, timeout := 0 }) ∧
          Release s Pick.timer = (some SemError.ErrIllegalRelease, s)) := by
  refine ⟨?_, ?_, ?_, ?_⟩
  · intro h pick
    exact Acquire_blocked s pick (by omega)
  · intro h
    have hr := Acquire_raced s h
    refine ⟨?_, hr.2⟩
    rw [hr.1, h0]
    rfl
  · intro h pick
    exact Release_blocked s pick (by omega)
  · intro h
    have hr := Release_raced s (by omega)
    refine ⟨?_, hr.2⟩
    rw [hr.1, h0]
    rfl

/-- Witness of C11 (amended): capacity 2, one ticket outstanding, timeout
zero. -/
theorem zero_timeout_witness :
    ((1 : Nat) = 2 →
        ∀ pick, Acquire { sem := { cap := 2, len := 1 }, timeout := 0 } pick
          = (some SemError.ErrNoTickets, { sem := { cap := 2, len := 1 }, timeout := 0 })) ∧
      ((1 : Nat) < 2 →
        Acquire { sem := { cap := 2, len := 1 }, timeout := 0 } Pick.comm
            = (none, { sem := { cap := 2, len := 1 + 1 }, timeout := 0 }) ∧
          Acquire { sem := { cap := 2, len := 1 }, timeout := 0 } Pick.timer
            = (some SemError.ErrNoTickets,
                { sem := { cap := 2, len := 1 }, timeout := 0 })) ∧
      ((1 : Nat) = 0 →
        ∀ pick, Release { sem := { cap := 2, len := 1 }, timeout := 0 } pick
          = (some SemError.ErrIllegalRelease,
              { sem := { cap := 2, len := 1 }, timeout := 0 })) ∧
      ((1 : Nat) ≤ 1 →
        Release { sem := { cap := 2, len := 1 }, timeout := 0 } Pick.comm
            = (none, { sem := { cap := 2, len := 1 - 1 }, timeout := 0 }) ∧
          Release { sem := { cap := 2, len := 1 }, timeout := 0 } Pick.timer
            = (some SemError.ErrIllegalRelease,
                { sem := { cap := 2, len := 1 }, timeout := 0 })) :=
  zero_timeout { sem := { cap := 2, len := 1 }, timeout := 0 } rfl

/-- Counterexample to C15 as stated: with capacity 10, all 10 tickets
outstanding and a timeout of 1 nanosecond, `Release` can return
`ErrIllegalRelease` although the outstanding count is at least 1; and with
nothing outstanding `Acquire` can return `ErrNoTickets` although the count is
below the capacity; each when the timer has fired and the `select` picks
it. -/
theorem success_conditions_counterexample :
    ((1 : Nat) ≤ 10 ∧
      (Release { sem := { cap := 10, len := 10 }, timeout := 1 } Pick.timer).1
        = some SemError.ErrIllegalRelease) ∧
    ((0 : Nat) < 10 ∧
      (Acquire { sem := { cap := 10, len := 0 }, timeout := 1 } Pick.timer).1
        = some SemError.ErrNoTickets) := by
  decide

/-- C15 (amended): for a call that no other call overlaps and for every
timeout, `Release` returns nil if and only if the outstanding count is at
least 1 before the call and its `select` takes the receive, and then the count
decreases by exactly one; `Acquire` returns nil if and only if the count is
below the capacity and its `select` takes the send. So `Release` can succeed
only with a non-empty buffer and `Acquire` only below the capacity, and each
then fails only by losing the race to a timer that has already fired. In
particular, when the count equals a capacity of at least 1, `Release` can
return nil and `Acquire` cannot: the two success conditions differ. -/
theorem success_conditions (s : Implementation) (pick : Pick) :
    ((Release s pick).1 = none ↔ 1 ≤ s.sem.len ∧ pick = Pick.comm) ∧
      ((Release s pick).1 = none → (Release s pick).2.sem.len + 1 = s.sem.len) ∧
      ((Acquire s pick).1 = none ↔ s.sem.len < s.sem.cap ∧ pick = Pick.comm) ∧
      ((Acquire s pick).1 = none → (Acquire s pick).2.sem.len = s.sem.len + 1) ∧
      (s.sem.len = s.sem.cap → 1 ≤ s.sem.cap →
        (Release s Pick.comm).1 = none ∧ (Acquire s pick).1 ≠ none) := by
  have hrel : (Release s pick).1 = none ↔ 1 ≤ s.sem.len ∧ pick = Pick.comm := by
    by_cases h : 0 < s.sem.len
    · cases pick with
      | comm =>
        rw [(Release_raced s h).1]
        exact ⟨fun _ => ⟨h, rfl⟩, fun _ => rfl⟩
      | timer =>
        rw [(Release_raced s h).2]
        constructor
        · intro hc; simp at hc
        · intro hc; simp at hc
    · rw [Release_blocked s pick h]
      constructor
      · intro hc; simp at hc
      · intro hc; omega
  have hacq : (Acquire s pick).1 = none ↔ s.sem.len < s.sem.cap ∧ pick = Pick.comm := by
    by_cases h : s.sem.len < s.sem.cap
    · cases pick with
      | comm =>
        rw [(Acquire_raced s h).1]
        exact ⟨fun _ => ⟨h, rfl⟩, fun _ => rfl⟩
      | timer =>
        rw [(Acquire_raced s h).2]
        constructor
        · intro hc; simp at hc
        · intro hc; simp at hc
    · rw [Acquire_blocked s pick h]
      constructor
      · intro hc; simp at hc
      · intro hc; omega
  refine ⟨hrel, ?_, hacq, ?_, ?_⟩
  · intro hn
    obtain ⟨h1, hp⟩ := hrel.1 hn
    subst hp
    rw [(Release_raced s (by omega)).1]
    show s.sem.len - 1 + 1 = s.sem.len
    omega
  · intro hn
    obtain ⟨h1, hp⟩ := hacq.1 hn
    subst hp
    rw [(Acquire_raced s h1).1]
    rfl
  · intro h1 h2
    refine ⟨?_, ?_⟩
    · rw [(Release_raced s (by omega)).1]
    · intro hc
      have := (hacq.1 hc).1
      omega

/-- C20: the capacity and the timeout of a semaphore are the values passed to
`NewInterface`, and they stay so after every call of any sequence of `Acquire`
and `Release` calls, successful or not: of the three components of the state
a call changes at most the outstanding count. -/
theorem capacity_timeout_fixed (tickets timeout : Int) (s : Implementation)
    (calls : List Call) (h : NewInterface tickets timeout = some s) :
    (s.sem.cap : Int) = tickets ∧ s.timeout = timeout ∧
      ∀ r ∈ run s calls, (r.2.sem.cap : Int) = tickets ∧ r.2.timeout = timeout ∧
        r.2 = { sem := { cap := s.sem.cap, len := r.2.sem.len }, timeout := s.timeout } := by
  have hs : 0 ≤ tickets ∧
      s = { sem := { cap := tickets.toNat, len := 0 }, timeout := timeout } := by
    by_cases hneg : tickets < 0
    · simp [NewInterface, makeChan, hneg] at h
    · have h2 := NewInterface_fresh tickets timeout (by omega)
      rw [h2] at h
      exact ⟨by omega, (Option.some.inj h).symm⟩
  have hcap : (s.sem.cap : Int) = tickets := by
    rw [hs.2]
    exact Int.toNat_of_nonneg hs.1
  have htime : s.timeout = timeout := by rw [hs.2]
  refine ⟨hcap, htime, ?_⟩
  intro r hr
  have hf := run_frame s calls r hr
  refine ⟨by rw [hf.1]; exact hcap, by rw [hf.2]; exact htime, ?_⟩
  rw [← hf.1, ← hf.2]

/-- Witness of C20: the example's 10 tickets and 6 seconds, with calls that
succeed and calls that fail. -/
theorem capacity_timeout_fixed_witness :
    ((Implementation.mk (Chan.mk 10 0) 6000000000).sem.cap : Int) = 10 ∧
      (Implementation.mk (Chan.mk 10 0) 6000000000).timeout = 6000000000 ∧
      ∀ r ∈ run (Implementation.mk (Chan.mk 10 0) 6000000000)
          [Call.release Pick.comm, Call.acquire Pick.comm, Call.release Pick.timer],
        (r.2.sem.cap : Int) = 10 ∧ r.2.timeout = 6000000000 ∧
          r.2 = { sem := { cap := (Implementation.mk (Chan.mk 10 0) 6000000000).sem.cap,
                           len := r.2.sem.len },
                  timeout := (Implementation.mk (Chan.mk 10 0) 6000000000).timeout } :=
  capacity_timeout_fixed 10 6000000000 (Implementation.mk (Chan.mk 10 0) 6000000000)
    [Call.release Pick.comm, Call.acquire Pick.comm, Call.release Pick.timer] (by decide)

end Semaphore

namespace FunctionalOptions

/-! ## Helper lemmas -/

theorem build_some (c : OptionCall) (r : RequestOptions) :
    c.build (some r) = some
      (match c with
        | OptionCall.page p => { r with page := p }
        | OptionCall.perPage pp => { r with perPage := pp }
        | OptionCall.sort s => { r with sort := s }) := by
  cases c <;> rfl

/-- The loop of `NewRequest` from any starting value: every field ends as the
argument of the last call for it, or as it started. -/
theorem foldl_build (cs : List OptionCall) (r : RequestOptions) :
    (cs.map OptionCall.build).foldl (fun r opt => opt r) (some r)
      = some { page := (lastPage cs).getD r.page,
               perPage := (lastPerPage cs).getD r.perPage,
               sort := (lastSort cs).getD r.sort } := by
  induction cs generalizing r with
  | nil => simp [lastPage, lastPerPage, lastSort]
  | cons c cs ih =>
    simp only [List.map_cons, List.foldl_cons, build_some, ih]
    cases c <;> cases h1 : lastPage cs <;> cases h2 : lastPerPage cs <;>
      cases h3 : lastSort cs <;> simp [lastPage, lastPerPage, lastSort, h1, h2, h3]

theorem Page_PerPage_comm (p pp : Int) (x : Option RequestOptions) :
    PerPage pp (Page p x) = Page p (PerPage pp x) := by
  cases x <;> rfl

theorem Page_Sort_comm (p : Int) (s : String) (x : Option RequestOptions) :
    SortOrder s (Page p x) = Page p (SortOrder s x) := by
  cases x <;> rfl

theorem PerPage_Sort_comm (pp : Int) (s : String) (x : Option RequestOptions) :
    SortOrder s (PerPage pp x) = PerPage pp (SortOrder s x) := by
  cases x <;> rfl

theorem build_twice (c : OptionCall) (x : Option RequestOptions) :
    c.build (c.build x) = c.build x := by
  cases c <;> cases x <;> rfl

/-! ## Claims -/

/-- C13: `NewRequest` called with no options returns a non-nil pointer to the
default values page = 1, perPage = 30, sort = "desc". -/
theorem NewRequest_defaults :
    NewRequest [] = some { page := 1, perPage := 30, sort := "desc" } ∧
      NewRequest [] ≠ none := by
  constructor
  · rfl
  · simp [NewRequest]

/-- C14: each option sets its own field and leaves the other two as they
were: `NewRequest(Page(p))` is {p, 30, "desc"}, `NewRequest(PerPage(pp))` is
{1, pp, "desc"}, `NewRequest(Sort(s))` is {1, 30, s}, and
`NewRequest(Page(p), PerPage(pp), Sort(s))` is {p, pp, s}; applied to a
pointer to any value, an option changes only its own field. The two calls of
the example give {10, 30, "desc"} and {10, 2, "ast"}. -/
theorem options_set_own_field (p pp : Int) (s : String) (r : RequestOptions) :
    NewRequest [Page p] = some { page := p, perPage := 30, sort := "desc" } ∧
      NewRequest [PerPage pp] = some { page := 1, perPage := pp, sort := "desc" } ∧
      NewRequest [SortOrder s] = some { page := 1, perPage := 30, sort := s } ∧
      NewRequest [Page p, PerPage pp, SortOrder s]
        = some { page := p, perPage := pp, sort := s } ∧
      Page p (some r) = some { page := p, perPage := r.perPage, sort := r.sort } ∧
      PerPage pp (some r) = some { page := r.page, perPage := pp, sort := r.sort } ∧
      SortOrder s (some r) = some { page := r.page, perPage := r.perPage, sort := s } ∧
      NewRequest [Page 10] = some { page := 10, perPage := 30, sort := "desc" } ∧
      NewRequest [Page 10, PerPage 2, SortOrder "ast"]
        = some { page := 10, perPage := 2, sort := "ast" } :=
  ⟨rfl, rfl, rfl, rfl, rfl, rfl, rfl, rfl, rfl⟩

/-- C17: for every list of option calls, repeats included, `NewRequest`
applies them in argument order and the last one wins per field: the page is
the argument of the last `Page` call, or 1 if there is none, and likewise
perPage (default 30) and sort (default "desc"). Hence two adjacent options for
different fields can be swapped, and an option applied twice in a row is
the same as that option applied once, anywhere in the list. -/
theorem NewRequest_last_wins (cs pre post : List OptionCall) (c : OptionCall)
    (p pp : Int) (s : String) :
    NewRequest (cs.map OptionCall.build)
        = some { page := (lastPage cs).getD 1,
                 perPage := (lastPerPage cs).getD 30,
                 sort := (lastSort cs).getD "desc" } ∧
      NewRequest ((pre ++ [OptionCall.page p, OptionCall.perPage pp] ++ post).map
          OptionCall.build)
        = NewRequest ((pre ++ [OptionCall.perPage pp, OptionCall.page p] ++ post).map
          OptionCall.build) ∧
      NewRequest ((pre ++ [OptionCall.page p, OptionCall.sort s] ++ post).map
          OptionCall.build)
        = NewRequest ((pre ++ [OptionCall.sort s, OptionCall.page p] ++ post).map
          OptionCall.build) ∧
      NewRequest ((pre ++ [OptionCall.perPage pp, OptionCall.sort s] ++ post).map
          OptionCall.build)
        = NewRequest ((pre ++ [OptionCall.sort s, OptionCall.perPage pp] ++ post).map
          OptionCall.build) ∧
      NewRequest ((pre ++ [c, c] ++ post).map OptionCall.build)
        = NewRequest ((pre ++ [c] ++ post).map OptionCall.build) := by
  refine ⟨foldl_build cs _, ?_, ?_, ?_, ?_⟩
  · simp only [NewRequest, List.map_append, List.foldl_append, List.map_cons, List.map_nil,
      List.foldl_cons, List.foldl_nil, OptionCall.build, Page_PerPage_comm]
  · simp only [NewRequest, List.map_append, List.foldl_append, List.map_cons, List.map_nil,
      List.foldl_cons, List.foldl_nil, OptionCall.build, Page_Sort_comm]
  · simp only [NewRequest, List.map_append, List.foldl_append, List.map_cons, List.map_nil,
      List.foldl_cons, List.foldl_nil, OptionCall.build, PerPage_Sort_comm]
  · simp only [NewRequest, List.map_append, List.foldl_append, List.map_cons, List.map_nil,
      List.foldl_cons, List.foldl_nil, build_twice]

end FunctionalOptions

namespace ObserverPattern

/-! ## Claims -/

/-- C16: `Notify(e)` calls `OnNotify(e)` exactly once on each registered
observer and makes no other call, in no particular order, and it leaves the
set of registered observers unchanged. -/
theorem Notify_fans_out {Obs : Type} [DecidableEq Obs] (en : EventNotifier Obs)
    (e : Event) :
    (∀ o e2, Multiset.count (o, e2) (en.Notify e).1
        = if o ∈ en.observers ∧ e2 = e then 1 else 0) ∧
      Multiset.card (en.Notify e).1 = en.observers.card ∧
      (en.Notify e).2 = en := by
  refine ⟨?_, ?_, rfl⟩
  · intro o e2
    by_cases h : o ∈ en.observers ∧ e2 = e
    · obtain ⟨ho, he⟩ := h
      subst he
      have hinj : Function.Injective (fun x : Obs => (x, e2)) := by
        intro a b hab
        exact (Prod.mk.inj hab).1
      simp only [EventNotifier.Notify, ho, and_self, if_true]
      rw [Multiset.count_map_eq_count' _ _ hinj]
      exact Multiset.count_eq_one_of_mem en.observers.nodup ho
    · rw [if_neg h]
      apply Multiset.count_eq_zero_of_not_mem
      intro hm
      simp only [EventNotifier.Notify, Multiset.mem_map, Prod.mk.injEq] at hm
      obtain ⟨a, ha, hao, hae⟩ := hm
      exact h ⟨hao ▸ ha, hae.symm⟩
  · simp [EventNotifier.Notify]

/-- C18: `Deregister(o)` removes exactly the observer o: afterwards o is not
registered and every other observer is registered exactly if it was before.
It leaves the notifier unchanged exactly when o was not registered, and
`Register(o)` followed by `Deregister(o)` gives back the original notifier
exactly when o was not registered in it. -/
theorem Deregister_removes_one {Obs : Type} [DecidableEq Obs] (en : EventNotifier Obs)
    (o : Obs) :
    o ∉ (en.Deregister o).observers ∧
      (∀ x, x ≠ o → (x ∈ (en.Deregister o).observers ↔ x ∈ en.observers)) ∧
      (en.Deregister o = en ↔ o ∉ en.observers) ∧
      ((en.Register o).Deregister o = en ↔ o ∉ en.observers) := by
  cases en with
  | mk obs =>
    refine ⟨?_, ?_, ?_, ?_⟩
    · simp [EventNotifier.Deregister]
    · intro x hx
      simp [EventNotifier.Deregister, hx]
    · simp [EventNotifier.Deregister]
    · simp [EventNotifier.Deregister, EventNotifier.Register]

/-- C19: `Register` is idempotent: `Register(o)` twice gives the same
notifier as `Register(o)` once, and `Notify` then still calls `OnNotify` on o
exactly once; a notifier fresh from `NewEventNotifier` has no registered
observer and `Notify` on it makes no call. -/
theorem Register_idempotent {Obs : Type} [DecidableEq Obs] (en : EventNotifier Obs)
    (o : Obs) (e : Event) :
    (en.Register o).Register o = en.Register o ∧
      o ∈ (en.Register o).observers ∧
      Multiset.count (o, e) (((en.Register o).Register o).Notify e).1 = 1 ∧
      (∀ x, x ∉ (NewEventNotifier Obs).observers) ∧
      ((NewEventNotifier Obs).Notify e).1 = 0 := by
  have hmem : o ∈ ((en.Register o).Register o).observers := by
    simp [EventNotifier.Register]
  have hinj : Function.Injective (fun x : Obs => (x, e)) := by
    intro a b hab
    exact (Prod.mk.inj hab).1
  refine ⟨?_, ?_, ?_, ?_, ?_⟩
  · simp [EventNotifier.Register]
  · simp [EventNotifier.Register]
  · simp only [EventNotifier.Notify]
    rw [Multiset.count_map_eq_count' _ _ hinj]
    exact Multiset.count_eq_one_of_mem (Finset.nodup _) hmem
  · intro x
    simp [NewEventNotifier]
  · simp [NewEventNotifier, EventNotifier.Notify]

end ObserverPattern
